import Mathlib

/-!
# Verification of the CybLight login front-end

Shallow embedding of the client-side router (`src/unnamed/part_000`), the
HTTP client wrapper `apiCall`, the WebAuthn base64url codec, the passkey
flows, and the global error-reporting handlers of
`src/public/assets/js/login.js`, together with proofs of the documented
properties.
-/

namespace CybLight

/-! ## Client-side router (`src/unnamed/part_000`)

`location.pathname` is modelled as a `List Char`.  The route allow-list and
the stripping of leading/trailing slashes follow the source:
`path.replace(/^\/+/, '').replace(/\/+$/, '')`, then membership in the
fixed `routes` set, then the single-segment profile heuristic. -/

def routes : List String :=
  ["signup", "account-profile", "account-security", "account-sessions",
   "account-easter-eggs", "verify-email", "username", "password", "2fa",
   "2fa-verify", "reset", "done", "strawberry-history"]

/-- `replace(/^\/+/, '')`: drop the leading run of slashes. -/
def stripLeadingSlashes (s : List Char) : List Char := s.dropWhile (· == '/')

/-- `replace(/\/+$/, '')`: drop the trailing run of slashes. -/
def stripTrailingSlashes (s : List Char) : List Char :=
  (s.reverse.dropWhile (· == '/')).reverse

def normalizePath (s : List Char) : List Char :=
  stripTrailingSlashes (stripLeadingSlashes s)

/-- `getRoute` from the router module. -/
def getRoute (pathname : List Char) : String :=
  let path := normalizePath pathname
  if routes.contains (String.mk path) then String.mk path
  else if !path.isEmpty && !path.contains '/' then "profile"
  else "username"

/-- `getRouteParam` from the router module. -/
def getRouteParam (pathname : List Char) (paramName : String) : Option String :=
  let path := normalizePath pathname
  if !path.isEmpty && !path.contains '/' && paramName == "username" then
    some (String.mk path)
  else none

/-! ## HTTP client wrapper `apiCall` (`login.js` lines 461-552)

The wrapper is effectful; it is embedded as a pure function of an
environment describing the browser state (`offline`) and the outcome of the
underlying `fetch`.  `fetch` either resolves with a response after some
latency, rejects with an error (`name`/`message`) after some latency, or
never settles.  The `AbortController` timeout fires at `timeoutMs`, turning
any outcome that has not settled by then into an `AbortError` rejection at
that instant.  The returned trace records the synthesized response, whether
the network was touched, whether `CybRouter.navigate('username')` was
invoked, and when the call settled. -/

def API_BASE : String := "https://api.cyblight.org"

inductive FetchOutcome where
  | resolves (status : Nat) (statusText : String) (latency : Nat)
  | rejects (name message : String) (latency : Nat)
  | hangs
deriving DecidableEq, Repr

/-- The fields of the (real or synthesized) response object that the
claims mention: `ok`, `status`, `statusText`, and the payload returned by
`json()` (`some msg` for the synthesized `{ error: msg }` bodies, `none`
for a genuine network body). -/
structure ApiResponse where
  ok : Bool
  status : Nat
  statusText : String
  errorJson : Option String
deriving DecidableEq, Repr

structure ApiCallTrace where
  response : ApiResponse
  attemptedFetch : Bool
  navigatedToLogin : Bool
  settledAt : Nat
deriving DecidableEq, Repr

/-- JS `String.prototype.includes` on char lists: substring containment. -/
def jsIncludes (s sub : List Char) : Bool := decide (sub <:+: s)

/-- The negated `endpoint.includes(...)` conjuncts guarding the 401
redirect (lines 511-518). -/
def excludedFrom401Redirect (endpoint : List Char) : Bool :=
  jsIncludes endpoint "/auth/me".toList ||
  jsIncludes endpoint "/auth/login".toList ||
  jsIncludes endpoint "/auth/register".toList ||
  jsIncludes endpoint "/auth/login-history".toList ||
  jsIncludes endpoint "/auth/trusted-devices".toList

/-- The `errorMessage` computed in the `catch` branch (lines 527-538). -/
def catchErrorMessage (name message : String) : String :=
  if name == "AbortError" then
    "Превышено время ожидания. Сервер не отвечает."
  else if jsIncludes message.toList "Failed to fetch".toList then
    "Не удалось подключиться к серверу. Проверьте интернет."
  else if jsIncludes message.toList "NetworkError".toList then
    "Ошибка сети. Проверьте подключение к интернету."
  else if message == "" then "Неизвестная ошибка сети"
  else message

/-- The mock `Response` built in the `catch` branch (lines 540-548). -/
def catchResponse (name message : String) : ApiResponse :=
  { ok := false
    status := 0
    statusText := if name == "AbortError" then "Request timeout" else message
    errorJson := some (catchErrorMessage name message) }

/-- The mock `Response` built in the offline short-circuit (lines 464-475). -/
def offlineResponse : ApiResponse :=
  { ok := false
    status := 0
    statusText := "No internet connection"
    errorJson := some "Нет подключения к интернету. Проверьте соединение." }

/-- `apiCall(endpoint, options, timeoutMs)` as a function of the browser
environment.  A real `Response.ok` is `200 ≤ status < 300`. -/
def apiCall (offline : Bool) (endpoint : List Char) (outcome : FetchOutcome)
    (timeoutMs : Nat := 10000) : ApiCallTrace :=
  if offline then
    { response := offlineResponse
      attemptedFetch := false
      navigatedToLogin := false
      settledAt := 0 }
  else
    match outcome with
    | .resolves status statusText latency =>
      if latency < timeoutMs then
        { response :=
            { ok := decide (200 ≤ status ∧ status < 300)
              status := status
              statusText := statusText
              errorJson := none }
          attemptedFetch := true
          navigatedToLogin := status == 401 && !excludedFrom401Redirect endpoint
          settledAt := latency }
      else
        { response := catchResponse "AbortError" "signal is aborted without reason"
          attemptedFetch := true
          navigatedToLogin := false
          settledAt := timeoutMs }
    | .rejects name message latency =>
      if latency < timeoutMs then
        { response := catchResponse name message
          attemptedFetch := true
          navigatedToLogin := false
          settledAt := latency }
      else
        { response := catchResponse "AbortError" "signal is aborted without reason"
          attemptedFetch := true
          navigatedToLogin := false
          settledAt := timeoutMs }
    | .hangs =>
      { response := catchResponse "AbortError" "signal is aborted without reason"
        attemptedFetch := true
        navigatedToLogin := false
        settledAt := timeoutMs }

/-! ## base64url codec (`login.js` lines 1966-1977 and 1998-2030)

Byte buffers are `List Nat` with entries below 256.  The encode direction
is `btoa(...)` followed by the global replacements `+`→`-`, `/`→`_` and
removal of `=`; the decode direction substitutes `-`→`+`, `_`→`/` and
applies `atob`, reading bytes off with `charCodeAt`.  `btoa`/`atob` are the platform primitives, modelled by
standard base64 with padding and WHATWG forgiving-base64 decode. -/

def base64Chars : List Char :=
  "ABCDEFGHIJKLMNOPQRSTUVWXYZabcdefghijklmnopqrstuvwxyz0123456789+/".toList

def alphaChar (v : Nat) : Char := base64Chars.getD v '?'

def decVal (c : Char) : Option Nat := base64Chars.findIdx? (fun x => x == c)

/-- `btoa` on a byte sequence: standard base64 with `=` padding. -/
def btoa : List Nat → List Char
  | [] => []
  | [b1] => [alphaChar (b1 / 4), alphaChar (b1 % 4 * 16), '=', '=']
  | [b1, b2] =>
      [alphaChar (b1 / 4), alphaChar (b1 % 4 * 16 + b2 / 16),
       alphaChar (b2 % 16 * 4), '=']
  | b1 :: b2 :: b3 :: rest =>
      alphaChar (b1 / 4) :: alphaChar (b1 % 4 * 16 + b2 / 16) ::
      alphaChar (b2 % 16 * 4 + b3 / 64) :: alphaChar (b3 % 64) :: btoa rest

/-- JS `String.prototype.replace(/a/g, b)` for one-character patterns. -/
def replaceAll (a b : Char) (s : List Char) : List Char :=
  s.map (fun c => if c == a then b else c)

/-- base64url encode exactly as chained in the source. -/
def b64urlEncode (bytes : List Nat) : List Char :=
  (replaceAll '/' '_' (replaceAll '+' '-' (btoa bytes))).filter (fun c => c != '=')

def isBase64Ws (c : Char) : Bool :=
  c == ' ' || c == '\t' || c == '\n' || c == '\r' || c == '\x0C'

/-- Decode forgiving-base64 6-bit groups; a trailing group of one
character (or any character outside the alphabet, `=` included) fails. -/
def atobChunks : List Char → Option (List Nat)
  | [] => some []
  | [c1, c2] => do
      let v1 ← decVal c1
      let v2 ← decVal c2
      pure [v1 * 4 + v2 / 16]
  | [c1, c2, c3] => do
      let v1 ← decVal c1
      let v2 ← decVal c2
      let v3 ← decVal c3
      pure [v1 * 4 + v2 / 16, v2 % 16 * 16 + v3 / 4]
  | c1 :: c2 :: c3 :: c4 :: rest => do
      let v1 ← decVal c1
      let v2 ← decVal c2
      let v3 ← decVal c3
      let v4 ← decVal c4
      let tail ← atobChunks rest
      pure ((v1 * 4 + v2 / 16) :: (v2 % 16 * 16 + v3 / 4) :: (v3 % 4 * 64 + v4) :: tail)
  | [_] => none

/-- Strip up to two trailing `=` characters. -/
def dropBase64Padding (s : List Char) : List Char :=
  let s1 := if s.getLast? == some '=' then s.dropLast else s
  if s1.getLast? == some '=' then s1.dropLast else s1

/-- `atob`: WHATWG forgiving-base64 decode, `none` for the thrown
`InvalidCharacterError`.  Tolerates padded and unpadded input. -/
def atob (s : List Char) : Option (List Nat) :=
  let s := s.filter (fun c => !isBase64Ws c)
  let s := if s.length % 4 == 0 then dropBase64Padding s else s
  atobChunks s

/-- base64url decode exactly as chained in the source. -/
def b64urlDecode (s : List Char) : Option (List Nat) :=
  atob (replaceAll '_' '/' (replaceAll '-' '+' s))

/-- The per-character effect of the encode-side replacements `+`→`-`,
`/`→`_`. -/
def urlSub (c : Char) : Char := if c == '+' then '-' else if c == '/' then '_' else c

/-- The per-character effect of the decode-side replacements `-`→`+`,
`_`→`/`. -/
def stdSub (c : Char) : Char := if c == '-' then '+' else if c == '_' then '/' else c

/-- The padding-free base64 character stream of a byte buffer. -/
def cleanEnc : List Nat → List Char
  | [] => []
  | [b1] => [alphaChar (b1 / 4), alphaChar (b1 % 4 * 16)]
  | [b1, b2] =>
      [alphaChar (b1 / 4), alphaChar (b1 % 4 * 16 + b2 / 16),
       alphaChar (b2 % 16 * 4)]
  | b1 :: b2 :: b3 :: rest =>
      alphaChar (b1 / 4) :: alphaChar (b1 % 4 * 16 + b2 / 16) ::
      alphaChar (b2 % 16 * 4 + b3 / 64) :: alphaChar (b3 % 64) :: cleanEnc rest

/-! ## Passkey flows (`login.js` lines 1930-2071 and 7871-7989)

The two WebAuthn handlers are effectful; each is embedded as a function
from an environment (the branch outcomes the browser/server supply) to the
ordered list of observable effects: alerts/on-page messages, API requests,
the platform credential ceremony, and navigation. -/

inductive Effect where
  | alert (msg : String)
  | showMsg (kind msg : String)
  | apiRequest (endpoint : String)
  | ceremony
  | navigate (route : String)
deriving DecidableEq, Repr

structure JsError where
  name : String
  message : String
deriving DecidableEq, Repr

inductive CeremonyOutcome where
  | throws (err : JsError)
  | cancelled
  | credential
deriving DecidableEq, Repr

structure KeyLoginEnv where
  /-- `!!window.PublicKeyCredential` -/
  hasPublicKeyCredential : Bool
  /-- `optionsRes.ok` -/
  optionsResOk : Bool
  /-- `optionsRes.json().catch(() => ({ error: 'Unknown error' }))` in the
  failure branch: `none` = the parse failed, `some e` = the parsed body's
  `error` field (`none` = absent). -/
  optionsFailJson : Option (Option String)
  /-- `await optionsRes.json()` (line 1958): `some e` = the promise
  rejects with `e`. -/
  optionsJsonErr : Option JsError
  /-- `optionsData.ok && optionsData.options && optionsData.challengeId` -/
  optionsDataValid : Bool
  /-- `options.challenge` -/
  challengeStr : List Char
  /-- the `id` fields of `options.allowCredentials || []` -/
  allowIds : List (List Char)
  ceremonyOutcome : CeremonyOutcome
  /-- `loginRes.ok` -/
  loginResOk : Bool
  /-- `loginData.error` where `loginData = loginRes.json().catch(() => ({}))` -/
  loginFailJson : Option String
deriving DecidableEq, Repr

def keyLoginCapabilityAlert : String :=
  "❌ Ваш браузер не поддерживает ключи доступа (passkeys).\n\nИспользуйте современный браузер: Chrome, Edge, Safari или Firefox."

def atobThrowError : JsError :=
  ⟨"InvalidCharacterError",
   "Failed to execute 'atob' on 'Window': The string to be decoded is not correctly encoded."⟩

/-- The `errorMessage` chosen in the catch branch (lines 2056-2064). -/
def keyLoginCatchMessage (e : JsError) : String :=
  if e.name == "NotAllowedError" then
    "❌ Аутентификация отменена или время ожидания истекло"
  else if e.name == "InvalidStateError" then
    "❌ Ключ доступа не найден на этом устройстве"
  else if e.message != "" then "❌ " ++ e.message
  else "Не удалось войти по ключу доступа"

/-- The `try` block of the `keyLogin` handler: the effects produced and
the error it throws, if any. -/
def keyLoginTry (env : KeyLoginEnv) : List Effect × Option JsError :=
  let effs := [Effect.apiRequest "/auth/passkey/login/options"]
  if env.optionsResOk = false then
    (effs, some ⟨"Error",
      match env.optionsFailJson with
      | none => "Unknown error"
      | some none => "Не удалось получить параметры аутентификации"
      | some (some s) =>
          if s == "" then "Не удалось получить параметры аутентификации" else s⟩)
  else
    match env.optionsJsonErr with
    | some e => (effs, some e)
    | none =>
      if env.optionsDataValid = false then
        (effs, some ⟨"Error", "Некорректный ответ сервера"⟩)
      else if (b64urlDecode env.challengeStr).isNone
          || env.allowIds.any (fun i => (b64urlDecode i).isNone) then
        (effs, some atobThrowError)
      else
        let effs := effs ++ [Effect.ceremony]
        match env.ceremonyOutcome with
        | .throws e => (effs, some e)
        | .cancelled => (effs, some ⟨"Error", "Аутентификация отменена"⟩)
        | .credential =>
          let effs := effs ++ [Effect.apiRequest "/auth/passkey/login"]
          if env.loginResOk = false then
            (effs, some ⟨"Error",
              match env.loginFailJson with
              | none => "Ошибка входа"
              | some s => if s == "" then "Ошибка входа" else s⟩)
          else
            (effs ++ [Effect.navigate "account-profile"], none)

/-- The `keyLogin` click handler (lines 1930-2071). -/
def keyLoginClick (env : KeyLoginEnv) : List Effect :=
  if env.hasPublicKeyCredential = false then [Effect.alert keyLoginCapabilityAlert]
  else
    match keyLoginTry env with
    | (effs, none) => effs
    | (effs, some e) => effs ++ [Effect.alert (keyLoginCatchMessage e)]

structure RegisterPasskeyEnv where
  hasPublicKeyCredential : Bool
  /-- `r1.ok` -/
  r1Ok : Bool
  /-- `d1.ok` where `d1 = r1.json().catch(() => ({}))` (a failed parse
  leaves `d1.ok` falsy) -/
  d1Ok : Bool
  /-- `options.challenge` -/
  challengeStr : List Char
  /-- `options.user.id` -/
  userIdStr : List Char
  /-- the `id` fields of `options.excludeCredentials || []` -/
  excludeIds : List (List Char)
  ceremonyOutcome : CeremonyOutcome
  /-- `r2.ok` -/
  r2Ok : Bool
  /-- `d2.ok` where `d2 = r2.json().catch(() => ({}))` -/
  d2Ok : Bool
  /-- `d2.error` -/
  d2Error : Option String
deriving DecidableEq, Repr

def registerCapabilityMsg : String := "Ваш браузер не поддерживает ключи доступа"

/-- The body of `registerPasskey`'s `try` block, capability guard included
(lines 7872-7980). -/
def registerPasskeyTry (env : RegisterPasskeyEnv) : List Effect × Option JsError :=
  if env.hasPublicKeyCredential = false then
    ([Effect.showMsg "error" registerCapabilityMsg], none)
  else
    let effs := [Effect.apiRequest "/auth/passkey/register/options"]
    if env.r1Ok = false || env.d1Ok = false then
      (effs ++ [Effect.showMsg "error" "Ошибка получения параметров регистрации"], none)
    else if (b64urlDecode env.challengeStr).isNone
        || (b64urlDecode env.userIdStr).isNone
        || env.excludeIds.any (fun i => (b64urlDecode i).isNone) then
      (effs, some atobThrowError)
    else
      let effs := effs ++ [Effect.ceremony]
      match env.ceremonyOutcome with
      | .throws e => (effs, some e)
      | .cancelled => (effs ++ [Effect.showMsg "error" "Регистрация ключа отменена"], none)
      | .credential =>
        let effs := effs ++ [Effect.apiRequest "/auth/passkey/register"]
        if env.r2Ok = true && env.d2Ok = true then
          (effs ++ [Effect.showMsg "ok" "Ключ доступа успешно добавлен! ✅",
                    Effect.apiRequest "/auth/passkey/list"], none)
        else
          (effs ++ [Effect.showMsg "error"
            ("Ошибка сохранения ключа: " ++
              (match env.d2Error with
               | none => "unknown"
               | some s => if s == "" then "unknown" else s))], none)

/-- The catch branch of `registerPasskey` (lines 7981-7988). -/
def registerCatchEffect (e : JsError) : Effect :=
  if e.name == "NotAllowedError" then Effect.showMsg "warn" "Регистрация ключа отменена"
  else Effect.showMsg "error"
    ("Ошибка: " ++ (if e.message == "" then "unknown" else e.message))

def registerPasskey (env : RegisterPasskeyEnv) : List Effect :=
  match registerPasskeyTry env with
  | (effs, none) => effs
  | (effs, some e) => effs ++ [registerCatchEffect e]

/-! ## Global error reporting (`login.js` lines 10-77)

`window.onerror` and `window.onunhandledrejection` share the module-level
`errorCache` set and `errorCount` counter.  The handlers are embedded as a
state machine over a timestamped event trace: `errorCache` becomes a list
of (key, scheduled-deletion-time) pairs, `errorCount` a list of live
increments with their scheduled decrement times (`none` when no decrement
was ever scheduled: the over-limit early return skips line 24, and the
rejection handler has no decrement at all), and timers due by an event's
timestamp fire before the handler runs. -/

def WINDOW : Nat := 60000

def MAX_ERRORS_PER_MINUTE : Nat := 10

structure ErrEvent where
  time : Nat
  sync : Bool
  message : String
  source : String
  lineno : Nat
deriving DecidableEq, Repr

/-- `errorKey`: `message:source:lineno` in `window.onerror`,
`message:promise` in `window.onunhandledrejection`. -/
def eventKey (e : ErrEvent) : String :=
  if e.sync then e.message ++ ":" ++ e.source ++ ":" ++ toString e.lineno
  else e.message ++ ":promise"

structure ErrState where
  cache : List (String × Nat)
  tokens : List (Option Nat)
  forwarded : List (Nat × String)
deriving DecidableEq, Repr

def cacheLive (now : Nat) (kv : String × Nat) : Bool := decide (now < kv.2)

def tokenLive (now : Nat) (d : Option Nat) : Bool := d.all (fun dl => decide (now < dl))

/-- Fire every timer due by `now`. -/
def purge (now : Nat) (s : ErrState) : ErrState :=
  { cache := s.cache.filter (cacheLive now)
    tokens := s.tokens.filter (tokenLive now)
    forwarded := s.forwarded }

/-- The un-deduplicated tail of a handler invocation: add the key to the
cache with a 60 s deletion timer, `errorCount++`, rate-limit check
(over-limit returns early, leaving the increment in place forever),
schedule the decrement (sync handler only), forward the report. -/
def handleFresh (s : ErrState) (now : Nat) (sync : Bool) (k : String) : ErrState :=
  let s := { s with cache := (k, now + WINDOW) :: s.cache }
  if MAX_ERRORS_PER_MINUTE < s.tokens.length + 1 then
    { s with tokens := none :: s.tokens }
  else
    { s with
      tokens := (if sync then some (now + WINDOW) else none) :: s.tokens
      forwarded := (now, k) :: s.forwarded }

/-- One handler invocation at the event's timestamp. -/
def handleEvent (s : ErrState) (e : ErrEvent) : ErrState :=
  let s1 := purge e.time s
  let k := eventKey e
  if s1.cache.any (fun kv => kv.1 == k) then s1
  else handleFresh s1 e.time e.sync k

def runHandlers (evs : List ErrEvent) : ErrState :=
  evs.foldl handleEvent ⟨[], [], []⟩

/-- Forwards whose 60 s token is still live at `t`. -/
def liveCount (t : Nat) (fwd : List (Nat × String)) : Nat :=
  (fwd.filter (fun f => decide (t < f.1 + WINDOW))).length

/-- Forwards inside the rolling window of length `WINDOW` ending at `t`. -/
def windowCount (t : Nat) (fwd : List (Nat × String)) : Nat :=
  (fwd.filter (fun f => decide (f.1 ≤ t ∧ t < f.1 + WINDOW))).length

/-- No two forwards of the same key within `WINDOW` of each other (the
list is newest first). -/
def Dedup (fwd : List (Nat × String)) : Prop :=
  fwd.Pairwise (fun a b => a.2 = b.2 → b.1 + WINDOW ≤ a.1)

/-- Induction invariant at time `now`: forwards lie in the past, live
forwards are covered by live tokens, every rolling window respects the
limit, recently forwarded keys are still cached, and forwards are
deduplicated. -/
def Inv (s : ErrState) (now : Nat) : Prop :=
  (∀ f ∈ s.forwarded, f.1 ≤ now) ∧
  (∀ t, now ≤ t →
     liveCount t s.forwarded ≤ (s.tokens.filter (tokenLive t)).length) ∧
  (∀ t, windowCount t s.forwarded ≤ MAX_ERRORS_PER_MINUTE) ∧
  (∀ f ∈ s.forwarded, now < f.1 + WINDOW →
     ∃ c ∈ s.cache, c.1 = f.2 ∧ c.2 = f.1 + WINDOW) ∧
  Dedup s.forwarded


/-! ## Theorems -/

/-! ### Router lemmas -/

theorem dropWhile_eq_self_of_contains_eq_false {c : Char} {s : List Char}
    (h : s.contains c = false) : s.dropWhile (· == c) = s := by
  cases s with
  | nil => rfl
  | cons a t =>
    have ha : (a == c) = false := by
      by_contra hba
      have : a = c := by
        have := eq_of_beq (Bool.of_not_eq_false hba)
        exact this
      subst this
      simp [List.contains_cons] at h
    simp [List.dropWhile_cons, ha]

theorem contains_reverse_eq {c : Char} {s : List Char} :
    s.reverse.contains c = s.contains c := by
  simp [List.contains_eq_any_beq, List.any_eq_true]

theorem stripTrailingSlashes_eq_self {s : List Char}
    (h : s.contains '/' = false) : stripTrailingSlashes s = s := by
  unfold stripTrailingSlashes
  rw [dropWhile_eq_self_of_contains_eq_false (by rw [contains_reverse_eq]; exact h)]
  exact s.reverse_reverse

theorem normalizePath_single_segment {seg : List Char}
    (hns : seg.contains '/' = false) :
    normalizePath ('/' :: seg) = seg := by
  unfold normalizePath stripLeadingSlashes
  rw [List.dropWhile_cons]
  simp only [beq_self_eq_true, if_true]
  rw [dropWhile_eq_self_of_contains_eq_false hns]
  exact stripTrailingSlashes_eq_self hns

theorem routes_no_slash : ∀ s ∈ routes, s.data.contains '/' = false := by decide

theorem contains_routes_of_mk {path : List Char}
    (h : routes.contains (String.mk path) = true) : path.contains '/' = false := by
  have hmem : String.mk path ∈ routes := by
    simpa using h
  have := routes_no_slash (String.mk path) hmem
  simpa using this

/-- C2: single-segment allow-listed paths resolve to themselves; unrecognized
single segments resolve to `profile` with the segment exposed as the
`username` parameter; paths whose normalized form is multi-segment or empty
resolve to the default `username` route. -/
theorem getRoute_spec :
    (∀ seg : List Char, seg ≠ [] → seg.contains '/' = false →
       routes.contains (String.mk seg) = true →
       getRoute ('/' :: seg) = String.mk seg) ∧
    (∀ seg : List Char, seg ≠ [] → seg.contains '/' = false →
       routes.contains (String.mk seg) = false →
       getRoute ('/' :: seg) = "profile" ∧
       getRouteParam ('/' :: seg) "username" = some (String.mk seg)) ∧
    (∀ p : List Char, (normalizePath p).contains '/' = true →
       getRoute p = "username") ∧
    (∀ p : List Char, normalizePath p = [] → getRoute p = "username") := by
  refine ⟨?_, ?_, ?_, ?_⟩
  · intro seg _ hns hin
    have hin' : String.mk seg ∈ routes := by simpa using hin
    simp [getRoute, normalizePath_single_segment hns, hin']
  · intro seg hne hns hout
    have hempty : seg.isEmpty = false := by
      cases seg with
      | nil => exact absurd rfl hne
      | cons a t => rfl
    have hout' : String.mk seg ∉ routes := by simpa using hout
    have hmem : '/' ∉ seg := by simpa using hns
    refine ⟨?_, ?_⟩
    · simp [getRoute, normalizePath_single_segment hns, hout', hempty, hmem]
    · simp [getRouteParam, normalizePath_single_segment hns, hempty, hmem]
  · intro p h
    have hout : String.mk (normalizePath p) ∉ routes := by
      intro hb
      have hfalse := routes_no_slash (String.mk (normalizePath p)) hb
      simp only [String.mk] at hfalse
      rw [hfalse] at h
      exact Bool.noConfusion h
    have hmem : '/' ∈ normalizePath p := by simpa using h
    simp [getRoute, hout, hmem]
  · intro p h
    have hnr : ("" : String) ∉ routes := by decide
    simp [getRoute, h, hnr]

/-- C2 witness: `/signup` → `signup`; `/alice` → `profile` with parameter
`alice`; `/a/b` and the empty path → `username`. -/
theorem getRoute_spec_witness :
    getRoute ('/' :: "signup".toList) = "signup" ∧
    (getRoute ('/' :: "alice".toList) = "profile" ∧
     getRouteParam ('/' :: "alice".toList) "username" = some "alice") ∧
    getRoute "/a/b".toList = "username" ∧
    getRoute [] = "username" := by
  refine ⟨?_, ?_, ?_, ?_⟩
  · exact getRoute_spec.1 "signup".toList (by decide) (by decide) (by decide)
  · exact getRoute_spec.2.1 "alice".toList (by decide) (by decide) (by decide)
  · exact getRoute_spec.2.2.1 "/a/b".toList (by decide)
  · exact getRoute_spec.2.2.2 [] (by decide)

theorem stripLeadingSlashes_replicate_append (m : Nat) (l : List Char) :
    stripLeadingSlashes (List.replicate m '/' ++ l) = stripLeadingSlashes l := by
  unfold stripLeadingSlashes
  rw [List.dropWhile_append]
  simp [List.dropWhile_replicate]

theorem stripTrailingSlashes_append_replicate (n : Nat) (l : List Char) :
    stripTrailingSlashes (l ++ List.replicate n '/') = stripTrailingSlashes l := by
  unfold stripTrailingSlashes
  rw [List.reverse_append, List.reverse_replicate, List.dropWhile_append]
  simp [List.dropWhile_replicate]

theorem stripLeadingSlashes_append (l r : List Char) :
    stripLeadingSlashes (l ++ r) =
      if (stripLeadingSlashes l).isEmpty then stripLeadingSlashes r
      else stripLeadingSlashes l ++ r := by
  unfold stripLeadingSlashes
  exact List.dropWhile_append

theorem normalizePath_pad (p : List Char) (m n : Nat) :
    normalizePath (List.replicate m '/' ++ p ++ List.replicate n '/') =
      normalizePath p := by
  unfold normalizePath
  rw [List.append_assoc, stripLeadingSlashes_replicate_append,
    stripLeadingSlashes_append]
  by_cases h : (stripLeadingSlashes p).isEmpty
  · rw [if_pos h]
    have h' : stripLeadingSlashes p = [] := by
      simpa [List.isEmpty_iff] using h
    rw [h']
    unfold stripLeadingSlashes stripTrailingSlashes
    simp [List.dropWhile_replicate]
  · rw [if_neg h]
    exact stripTrailingSlashes_append_replicate n _

/-- C7: `getRoute` is invariant under any number of extra leading and
trailing slashes around the path. -/
theorem getRoute_slash_invariant (p : List Char) (m n : Nat) :
    getRoute (List.replicate m '/' ++ p ++ List.replicate n '/') = getRoute p := by
  unfold getRoute
  rw [normalizePath_pad]

/-- C10: `getRouteParam "username"` returns the segment for every single
non-empty slash-free segment, reserved route names included; it returns
`none` for every other parameter name and for every path whose normalized
form is empty or multi-segment. -/
theorem getRouteParam_spec :
    (∀ seg : List Char, seg ≠ [] → seg.contains '/' = false →
       getRouteParam ('/' :: seg) "username" = some (String.mk seg)) ∧
    (∀ p : List Char, ∀ name : String, name ≠ "username" →
       getRouteParam p name = none) ∧
    (∀ p : List Char, normalizePath p = [] ∨ (normalizePath p).contains '/' = true →
       getRouteParam p "username" = none) := by
  refine ⟨?_, ?_, ?_⟩
  · intro seg hne hns
    have hempty : seg.isEmpty = false := by
      cases seg with
      | nil => exact absurd rfl hne
      | cons a t => rfl
    have hmem : '/' ∉ seg := by simpa using hns
    simp [getRouteParam, normalizePath_single_segment hns, hempty, hmem]
  · intro p name hname
    simp [getRouteParam, hname]
  · intro p h
    rcases h with h | h
    · simp [getRouteParam, h]
    · have hmem : '/' ∈ normalizePath p := by simpa using h
      simp [getRouteParam, hmem]

/-- C10 witness: `/signup` still exposes `signup` as the username parameter;
an unknown parameter name and a multi-segment path both give `none`. -/
theorem getRouteParam_spec_witness :
    getRouteParam ('/' :: "signup".toList) "username" = some "signup" ∧
    getRouteParam "/alice".toList "x" = none ∧
    getRouteParam "/a/b".toList "username" = none := by
  refine ⟨?_, ?_, ?_⟩
  · exact getRouteParam_spec.1 "signup".toList (by decide) (by decide)
  · exact getRouteParam_spec.2.1 "/alice".toList "x" (by decide)
  · exact getRouteParam_spec.2.2 "/a/b".toList (Or.inr (by decide))

/-- C3: a 401 response triggers navigation to the login route exactly when
the endpoint is outside the hard-coded excluded list. -/
theorem apiCall_401_redirect (endpoint : List Char) (statusText : String)
    (latency timeoutMs : Nat) (h : latency < timeoutMs) :
    (apiCall false endpoint (.resolves 401 statusText latency) timeoutMs).navigatedToLogin
      = !excludedFrom401Redirect endpoint := by
  simp [apiCall, h]

/-- C3 witness: a 401 from `/friends` navigates to login, a 401 from the
session probe `/auth/me` does not. -/
theorem apiCall_401_redirect_witness :
    (apiCall false "/friends".toList (.resolves 401 "Unauthorized" 30) 10000).navigatedToLogin
      = true ∧
    (apiCall false "/auth/me".toList (.resolves 401 "Unauthorized" 30) 10000).navigatedToLogin
      = false := by
  constructor
  · rw [apiCall_401_redirect "/friends".toList "Unauthorized" 30 10000 (by decide)]
    decide
  · rw [apiCall_401_redirect "/auth/me".toList "Unauthorized" 30 10000 (by decide)]
    decide

/-- C4: a rejected `fetch` is never propagated: the caller receives a
response-shaped value with `ok = false`, `status = 0`, and a non-empty
error message from `json()`. -/
theorem apiCall_never_throws (endpoint : List Char) (name message : String)
    (latency timeoutMs : Nat) :
    (apiCall false endpoint (.rejects name message latency) timeoutMs).response.ok
        = false ∧
    (apiCall false endpoint (.rejects name message latency) timeoutMs).response.status
        = 0 ∧
    ∃ msg,
      (apiCall false endpoint (.rejects name message latency) timeoutMs).response.errorJson
          = some msg ∧
      msg ≠ "" := by
  have hmsg : ∀ n m : String, catchErrorMessage n m ≠ "" := by
    intro n m
    unfold catchErrorMessage
    split
    · decide
    · split
      · decide
      · split
        · decide
        · split
          · decide
          · rename_i hne
            simpa using hne
  by_cases h : latency < timeoutMs
  · refine ⟨?_, ?_, catchErrorMessage name message, ?_, hmsg _ _⟩ <;>
      simp [apiCall, h, catchResponse]
  · refine ⟨?_, ?_, catchErrorMessage "AbortError" "signal is aborted without reason",
      ?_, hmsg _ _⟩ <;> simp [apiCall, h, catchResponse]

/-- C5: when the browser is offline, `apiCall` short-circuits to a
synthetic failure without touching the network. -/
theorem apiCall_offline (endpoint : List Char) (outcome : FetchOutcome)
    (timeoutMs : Nat) :
    (apiCall true endpoint outcome timeoutMs).response.ok = false ∧
    (apiCall true endpoint outcome timeoutMs).response.status = 0 ∧
    (apiCall true endpoint outcome timeoutMs).attemptedFetch = false := by
  refine ⟨?_, ?_, ?_⟩ <;> simp [apiCall, offlineResponse]

/-- C6: a `fetch` that never settles is aborted at the configured timeout
(default 10000 ms): the call resolves at `timeoutMs` with a synthetic
unsuccessful response whose `statusText` is `Request timeout`. -/
theorem apiCall_timeout (endpoint : List Char) (timeoutMs : Nat) :
    (apiCall false endpoint .hangs timeoutMs).settledAt = timeoutMs ∧
    (apiCall false endpoint .hangs timeoutMs).response.ok = false ∧
    (apiCall false endpoint .hangs timeoutMs).response.statusText
        = "Request timeout" ∧
    (apiCall false endpoint .hangs).settledAt = 10000 := by
  refine ⟨?_, ?_, ?_, ?_⟩ <;> simp [apiCall, catchResponse]

theorem urlSub_comp (c : Char) :
    (if (if c == '+' then '-' else c) == '/' then '_'
     else if c == '+' then '-' else c) = urlSub c := by
  unfold urlSub
  by_cases h1 : c = '+'
  · subst h1; decide
  · by_cases h2 : c = '/'
    · subst h2; decide
    · simp [h1, h2]

theorem stdSub_comp (c : Char) :
    (if (if c == '-' then '+' else c) == '_' then '/'
     else if c == '-' then '+' else c) = stdSub c := by
  unfold stdSub
  by_cases h1 : c = '-'
  · subst h1; decide
  · by_cases h2 : c = '_'
    · subst h2; decide
    · simp [h1, h2]

theorem replaceAll_comp_url (s : List Char) :
    replaceAll '/' '_' (replaceAll '+' '-' s) = s.map urlSub := by
  unfold replaceAll
  rw [List.map_map]
  induction s with
  | nil => rfl
  | cons c t ih => simp only [List.map_cons, ih, Function.comp, urlSub_comp]

theorem replaceAll_comp_std (s : List Char) :
    replaceAll '_' '/' (replaceAll '-' '+' s) = s.map stdSub := by
  unfold replaceAll
  rw [List.map_map]
  induction s with
  | nil => rfl
  | cons c t ih => simp only [List.map_cons, ih, Function.comp, stdSub_comp]

theorem url_round_all : ∀ v, v < 64 →
    stdSub (urlSub (alphaChar v)) = alphaChar v ∧
    (urlSub (alphaChar v) != '=') = true := by decide

theorem decVal_alpha : ∀ v, v < 64 → decVal (alphaChar v) = some v := by decide

theorem alpha_clean : ∀ v, v < 64 →
    (!isBase64Ws (alphaChar v)) = true ∧ ((alphaChar v) == '=') = false := by decide

theorem b64urlEncode_eq (B : List Nat) :
    b64urlEncode B = ((btoa B).map urlSub).filter (fun c => c != '=') := by
  unfold b64urlEncode
  rw [replaceAll_comp_url]

theorem stdSub_of_urlEncode : ∀ (B : List Nat), (∀ b ∈ B, b < 256) →
    (b64urlEncode B).map stdSub = cleanEnc B
  | [], _ => rfl
  | [b1], h => by
    have hb : b1 < 256 := h b1 (by simp)
    have h1 : b1 / 4 < 64 := by omega
    have h2 : b1 % 4 * 16 < 64 := by omega
    simp [b64urlEncode_eq, btoa, cleanEnc,
      (url_round_all _ h1).1, (url_round_all _ h1).2,
      (url_round_all _ h2).1, (url_round_all _ h2).2,
      show urlSub '=' = '=' from rfl]
  | [b1, b2], h => by
    have hb1 : b1 < 256 := h b1 (by simp)
    have hb2 : b2 < 256 := h b2 (by simp)
    have h1 : b1 / 4 < 64 := by omega
    have h2 : b1 % 4 * 16 + b2 / 16 < 64 := by omega
    have h3 : b2 % 16 * 4 < 64 := by omega
    simp [b64urlEncode_eq, btoa, cleanEnc,
      (url_round_all _ h1).1, (url_round_all _ h1).2,
      (url_round_all _ h2).1, (url_round_all _ h2).2,
      (url_round_all _ h3).1, (url_round_all _ h3).2,
      show urlSub '=' = '=' from rfl]
  | b1 :: b2 :: b3 :: rest, h => by
    have hb1 : b1 < 256 := h b1 (by simp)
    have hb2 : b2 < 256 := h b2 (by simp)
    have hb3 : b3 < 256 := h b3 (by simp)
    have hrest : ∀ b ∈ rest, b < 256 := fun b hb => h b (by simp [hb])
    have ih := stdSub_of_urlEncode rest hrest
    rw [b64urlEncode_eq] at ih
    have h1 : b1 / 4 < 64 := by omega
    have h2 : b1 % 4 * 16 + b2 / 16 < 64 := by omega
    have h3 : b2 % 16 * 4 + b3 / 64 < 64 := by omega
    have h4 : b3 % 64 < 64 := by omega
    simp [b64urlEncode_eq, btoa, cleanEnc,
      (url_round_all _ h1).1, (url_round_all _ h1).2,
      (url_round_all _ h2).1, (url_round_all _ h2).2,
      (url_round_all _ h3).1, (url_round_all _ h3).2,
      (url_round_all _ h4).1, (url_round_all _ h4).2, ih]

theorem cleanEnc_mem : ∀ (B : List Nat), (∀ b ∈ B, b < 256) →
    ∀ c ∈ cleanEnc B, ∃ v, v < 64 ∧ c = alphaChar v
  | [], _ => by simp [cleanEnc]
  | [b1], h => by
    have hb : b1 < 256 := h b1 (by simp)
    intro c hc
    simp [cleanEnc] at hc
    rcases hc with hc | hc
    · exact ⟨b1 / 4, by omega, hc⟩
    · exact ⟨b1 % 4 * 16, by omega, hc⟩
  | [b1, b2], h => by
    have hb1 : b1 < 256 := h b1 (by simp)
    have hb2 : b2 < 256 := h b2 (by simp)
    intro c hc
    simp [cleanEnc] at hc
    rcases hc with hc | hc | hc
    · exact ⟨b1 / 4, by omega, hc⟩
    · exact ⟨b1 % 4 * 16 + b2 / 16, by omega, hc⟩
    · exact ⟨b2 % 16 * 4, by omega, hc⟩
  | b1 :: b2 :: b3 :: rest, h => by
    have hb1 : b1 < 256 := h b1 (by simp)
    have hb2 : b2 < 256 := h b2 (by simp)
    have hb3 : b3 < 256 := h b3 (by simp)
    have hrest : ∀ b ∈ rest, b < 256 := fun b hb => h b (by simp [hb])
    intro c hc
    simp only [cleanEnc, List.mem_cons] at hc
    rcases hc with hc | hc | hc | hc | hc
    · exact ⟨b1 / 4, by omega, hc⟩
    · exact ⟨b1 % 4 * 16 + b2 / 16, by omega, hc⟩
    · exact ⟨b2 % 16 * 4 + b3 / 64, by omega, hc⟩
    · exact ⟨b3 % 64, by omega, hc⟩
    · exact cleanEnc_mem rest hrest c hc

theorem dropBase64Padding_eq_self {s : List Char}
    (h : ∀ c ∈ s, (c == '=') = false) : dropBase64Padding s = s := by
  unfold dropBase64Padding
  have hlast : (s.getLast? == some '=') = false := by
    cases hl : s.getLast? with
    | none => rfl
    | some c =>
      have hmem : c ∈ s.getLast? := by simp [hl, Option.mem_def]
      obtain ⟨hne, rfl⟩ := List.mem_getLast?_eq_getLast hmem
      simpa using h _ (List.getLast_mem hne)
  simp [hlast]

theorem atob_clean (B : List Nat) (h : ∀ b ∈ B, b < 256) :
    atob (cleanEnc B) = atobChunks (cleanEnc B) := by
  have hchars := cleanEnc_mem B h
  have hfilter : (cleanEnc B).filter (fun c => !isBase64Ws c) = cleanEnc B := by
    apply List.filter_eq_self.mpr
    intro c hc
    obtain ⟨v, hv, rfl⟩ := hchars c hc
    exact (alpha_clean v hv).1
  have hpad : dropBase64Padding (cleanEnc B) = cleanEnc B := by
    apply dropBase64Padding_eq_self
    intro c hc
    obtain ⟨v, hv, rfl⟩ := hchars c hc
    exact (alpha_clean v hv).2
  unfold atob
  rw [hfilter]
  by_cases hlen : (cleanEnc B).length % 4 == 0 <;> simp [hlen, hpad]

theorem atobChunks_cleanEnc : ∀ (B : List Nat), (∀ b ∈ B, b < 256) →
    atobChunks (cleanEnc B) = some B
  | [], _ => rfl
  | [b1], h => by
    have hb : b1 < 256 := h b1 (by simp)
    have h1 : b1 / 4 < 64 := by omega
    have h2 : b1 % 4 * 16 < 64 := by omega
    simp [cleanEnc, atobChunks, decVal_alpha _ h1, decVal_alpha _ h2]
    omega
  | [b1, b2], h => by
    have hb1 : b1 < 256 := h b1 (by simp)
    have hb2 : b2 < 256 := h b2 (by simp)
    have h1 : b1 / 4 < 64 := by omega
    have h2 : b1 % 4 * 16 + b2 / 16 < 64 := by omega
    have h3 : b2 % 16 * 4 < 64 := by omega
    simp [cleanEnc, atobChunks, decVal_alpha _ h1, decVal_alpha _ h2, decVal_alpha _ h3]
    constructor <;> omega
  | b1 :: b2 :: b3 :: rest, h => by
    have hb1 : b1 < 256 := h b1 (by simp)
    have hb2 : b2 < 256 := h b2 (by simp)
    have hb3 : b3 < 256 := h b3 (by simp)
    have hrest : ∀ b ∈ rest, b < 256 := fun b hb => h b (by simp [hb])
    have ih := atobChunks_cleanEnc rest hrest
    have h1 : b1 / 4 < 64 := by omega
    have h2 : b1 % 4 * 16 + b2 / 16 < 64 := by omega
    have h3 : b2 % 16 * 4 + b3 / 64 < 64 := by omega
    have h4 : b3 % 64 < 64 := by omega
    cases hr : cleanEnc rest with
    | nil =>
      rw [hr] at ih
      simp [cleanEnc, hr, atobChunks, decVal_alpha _ h1, decVal_alpha _ h2,
        decVal_alpha _ h3, decVal_alpha _ h4, ih]
      refine ⟨?_, ?_, ?_⟩ <;> omega
    | cons c cs =>
      rw [hr] at ih
      simp [cleanEnc, hr, atobChunks, decVal_alpha _ h1, decVal_alpha _ h2,
        decVal_alpha _ h3, decVal_alpha _ h4, ih]
      refine ⟨?_, ?_, ?_⟩ <;> omega

/-- C1: the base64url codec round-trips: decoding the encoding of any byte
buffer recovers the buffer exactly. -/
theorem b64url_roundtrip (B : List Nat) (h : ∀ b ∈ B, b < 256) :
    b64urlDecode (b64urlEncode B) = some B := by
  unfold b64urlDecode
  rw [replaceAll_comp_std, stdSub_of_urlEncode B h, atob_clean B h,
    atobChunks_cleanEnc B h]

/-- C1 witness: a concrete five-byte buffer round-trips. -/
theorem b64url_roundtrip_witness :
    b64urlDecode (b64urlEncode [0, 255, 16, 254, 7]) = some [0, 255, 16, 254, 7] :=
  b64url_roundtrip [0, 255, 16, 254, 7] (by decide)

/-- C9: when `window.PublicKeyCredential` is absent, both passkey flows
emit only a capability error: no API request, no credential ceremony, no
navigation. -/
theorem passkey_capability_guard (envL : KeyLoginEnv) (envR : RegisterPasskeyEnv)
    (hL : envL.hasPublicKeyCredential = false)
    (hR : envR.hasPublicKeyCredential = false) :
    keyLoginClick envL = [Effect.alert keyLoginCapabilityAlert] ∧
    registerPasskey envR = [Effect.showMsg "error" registerCapabilityMsg] ∧
    (∀ e ∈ keyLoginClick envL,
      (∀ ep, e ≠ Effect.apiRequest ep) ∧ e ≠ Effect.ceremony ∧
      (∀ r, e ≠ Effect.navigate r)) ∧
    (∀ e ∈ registerPasskey envR,
      (∀ ep, e ≠ Effect.apiRequest ep) ∧ e ≠ Effect.ceremony ∧
      (∀ r, e ≠ Effect.navigate r)) := by
  have h1 : keyLoginClick envL = [Effect.alert keyLoginCapabilityAlert] := by
    simp [keyLoginClick, hL]
  have h2 : registerPasskey envR = [Effect.showMsg "error" registerCapabilityMsg] := by
    simp [registerPasskey, registerPasskeyTry, hR]
  refine ⟨h1, h2, ?_, ?_⟩
  · intro e he
    rw [h1] at he
    simp at he
    subst he
    refine ⟨fun ep => by simp, by simp, fun r => by simp⟩
  · intro e he
    rw [h2] at he
    simp at he
    subst he
    refine ⟨fun ep => by simp, by simp, fun r => by simp⟩

/-- C9 witness: concrete environments without the credential API produce
exactly the capability message. -/
theorem passkey_capability_guard_witness :
    keyLoginClick
      { hasPublicKeyCredential := false, optionsResOk := true,
        optionsFailJson := none, optionsJsonErr := none,
        optionsDataValid := true, challengeStr := [], allowIds := [],
        ceremonyOutcome := .credential, loginResOk := true,
        loginFailJson := none } = [Effect.alert keyLoginCapabilityAlert] ∧
    registerPasskey
      { hasPublicKeyCredential := false, r1Ok := true, d1Ok := true,
        challengeStr := [], userIdStr := [], excludeIds := [],
        ceremonyOutcome := .credential, r2Ok := true, d2Ok := true,
        d2Error := none } = [Effect.showMsg "error" registerCapabilityMsg] := by
  refine ⟨?_, ?_⟩
  · exact (passkey_capability_guard _
      { hasPublicKeyCredential := false, r1Ok := true, d1Ok := true,
        challengeStr := [], userIdStr := [], excludeIds := [],
        ceremonyOutcome := .credential, r2Ok := true, d2Ok := true,
        d2Error := none } rfl rfl).1
  · exact (passkey_capability_guard
      { hasPublicKeyCredential := false, optionsResOk := true,
        optionsFailJson := none, optionsJsonErr := none,
        optionsDataValid := true, challengeStr := [], allowIds := [],
        ceremonyOutcome := .credential, loginResOk := true,
        loginFailJson := none } _ rfl rfl).2.1

theorem length_filter_mono {α : Type} {p q : α → Bool} {l : List α}
    (h : ∀ a ∈ l, p a = true → q a = true) :
    (l.filter p).length ≤ (l.filter q).length := by
  induction l with
  | nil => exact Nat.le_refl _
  | cons a t ih =>
    have ht := fun x hx => h x (List.mem_cons_of_mem a hx)
    rw [List.filter_cons, List.filter_cons]
    by_cases hp : p a = true
    · rw [if_pos hp, if_pos (h a (List.mem_cons_self a t) hp)]
      simpa using ih ht
    · rw [if_neg hp]
      by_cases hq : q a = true
      · rw [if_pos hq]
        exact Nat.le_succ_of_le (ih ht)
      · rw [if_neg hq]
        exact ih ht

theorem tokenLive_mono {t₀ t : Nat} (h : t₀ ≤ t) {d : Option Nat}
    (hd : tokenLive t d = true) : tokenLive t₀ d = true := by
  cases d with
  | none => rfl
  | some e =>
    simp [tokenLive] at hd ⊢
    omega

theorem filter_tokenLive_twice {t₀ t : Nat} (h : t₀ ≤ t) (l : List (Option Nat)) :
    (l.filter (tokenLive t₀)).filter (tokenLive t) = l.filter (tokenLive t) := by
  rw [List.filter_filter]
  apply List.filter_congr
  intro d _
  by_cases hd : tokenLive t d = true
  · simp [hd, tokenLive_mono h hd]
  · simp [Bool.eq_false_iff.mpr hd]

theorem inv_purge {s : ErrState} {now t₀ : Nat}
    (hinv : Inv s now) (h : now ≤ t₀) : Inv (purge t₀ s) t₀ := by
  obtain ⟨h1, h2, h3, h4, h5⟩ := hinv
  refine ⟨?_, ?_, ?_, ?_, ?_⟩
  · intro f hf
    exact Nat.le_trans (h1 f hf) h
  · intro t ht
    have hmain := h2 t (Nat.le_trans h ht)
    show liveCount t s.forwarded ≤
      ((s.tokens.filter (tokenLive t₀)).filter (tokenLive t)).length
    rw [filter_tokenLive_twice ht]
    exact hmain
  · exact h3
  · intro f hf hlive
    obtain ⟨c, hc, hck, hce⟩ := h4 f hf (by omega)
    refine ⟨c, List.mem_filter.mpr ⟨hc, ?_⟩, hck, hce⟩
    simp [cacheLive, hce]
    omega
  · exact h5

theorem handleFresh_inv {s : ErrState} {now : Nat} {sync : Bool} {k : String}
    (hinv : Inv s now)
    (hpurged : s.tokens.filter (tokenLive now) = s.tokens)
    (hmiss : ∀ kv ∈ s.cache, kv.1 ≠ k) :
    Inv (handleFresh s now sync k) now := by
  obtain ⟨h1, h2, h3, h4, h5⟩ := hinv
  unfold handleFresh
  by_cases hlim : MAX_ERRORS_PER_MINUTE < s.tokens.length + 1
  · rw [if_pos hlim]
    refine ⟨h1, ?_, h3, ?_, h5⟩
    · intro t ht
      have := h2 t ht
      simp only [List.filter_cons, tokenLive, Option.all_none, if_pos]
      simp only [List.length_cons]
      omega
    · intro f hf hlive
      obtain ⟨c, hc, hck, hce⟩ := h4 f hf hlive
      exact ⟨c, List.mem_cons_of_mem _ hc, hck, hce⟩
  · rw [if_neg hlim]
    have htok : s.tokens.length ≤ MAX_ERRORS_PER_MINUTE - 1 := by omega
    refine ⟨?_, ?_, ?_, ?_, ?_⟩
    · intro f hf
      simp only [List.mem_cons] at hf
      rcases hf with hf | hf
      · subst hf; exact Nat.le_refl _
      · exact h1 f hf
    · intro t ht
      have hmain := h2 t ht
      show liveCount t ((now, k) :: s.forwarded) ≤
        (((if sync then some (now + WINDOW) else none) :: s.tokens).filter
          (tokenLive t)).length
      rw [liveCount, List.filter_cons, List.filter_cons]
      by_cases hn : t < now + WINDOW
      · have hnewtok : tokenLive t (if sync then some (now + WINDOW) else none) = true := by
          cases sync <;> simp [tokenLive, hn]
        rw [if_pos (by simpa using hn), hnewtok, if_pos rfl]
        simp only [List.length_cons]
        exact Nat.succ_le_succ hmain
      · rw [if_neg (by simpa using hn)]
        exact Nat.le_trans hmain (by
          by_cases hx : tokenLive t (if sync then some (now + WINDOW) else none) = true
          · rw [if_pos hx]; exact Nat.le_succ_of_le (Nat.le_refl _)
          · rw [if_neg hx])
    · intro t
      show windowCount t ((now, k) :: s.forwarded) ≤ MAX_ERRORS_PER_MINUTE
      rw [windowCount, List.filter_cons]
      by_cases hin : now ≤ t ∧ t < now + WINDOW
      · rw [if_pos (by simpa using hin)]
        simp only [List.length_cons]
        have hsub : windowCount t s.forwarded ≤ liveCount now s.forwarded := by
          apply length_filter_mono
          intro f _ hfp
          simp only [decide_eq_true_eq] at hfp ⊢
          omega
        have hlivetok := h2 now (Nat.le_refl now)
        rw [hpurged] at hlivetok
        have : windowCount t s.forwarded ≤ s.tokens.length :=
          Nat.le_trans hsub hlivetok
        have hfin : windowCount t s.forwarded + 1 ≤ MAX_ERRORS_PER_MINUTE := by omega
        simpa [windowCount] using hfin
      · rw [if_neg (by simpa using hin)]
        exact h3 t
    · intro f hf hlive
      simp only [List.mem_cons] at hf
      rcases hf with hf | hf
      · subst hf
        exact ⟨(k, now + WINDOW), List.mem_cons_self _ _, rfl, rfl⟩
      · obtain ⟨c, hc, hck, hce⟩ := h4 f hf hlive
        exact ⟨c, List.mem_cons_of_mem _ hc, hck, hce⟩
    · refine List.pairwise_cons.mpr ⟨?_, h5⟩
      intro f hf hkey
      by_contra hcon
      have hlive : now < f.1 + WINDOW := by omega
      obtain ⟨c, hc, hck, _⟩ := h4 f hf hlive
      exact hmiss c hc (by rw [hck, ← hkey])

theorem purge_tokens_idem (t₀ : Nat) (s : ErrState) :
    (purge t₀ s).tokens.filter (tokenLive t₀) = (purge t₀ s).tokens := by
  show (s.tokens.filter (tokenLive t₀)).filter (tokenLive t₀) =
    s.tokens.filter (tokenLive t₀)
  exact filter_tokenLive_twice (Nat.le_refl t₀) s.tokens

theorem handleEvent_inv {s : ErrState} {e : ErrEvent} {now : Nat}
    (hinv : Inv s now) (hle : now ≤ e.time) : Inv (handleEvent s e) e.time := by
  have hp : Inv (purge e.time s) e.time := inv_purge hinv hle
  unfold handleEvent
  by_cases hdup : (purge e.time s).cache.any (fun kv => kv.1 == eventKey e) = true
  · rw [if_pos hdup]
    exact hp
  · rw [if_neg hdup]
    apply handleFresh_inv hp (purge_tokens_idem e.time s)
    intro kv hkv
    have := List.any_eq_true.not.mp hdup
    push_neg at this
    have hkvf := this kv hkv
    simpa using hkvf

theorem foldl_inv : ∀ (evs : List ErrEvent) (s : ErrState) (now : Nat),
    Inv s now → evs.Pairwise (fun a b => a.time ≤ b.time) →
    (∀ ev ∈ evs, now ≤ ev.time) →
    ∃ nf, Inv (evs.foldl handleEvent s) nf
  | [], _, now, hinv, _, _ => ⟨now, hinv⟩
  | e :: rest, s, now, hinv, hsort, hbound => by
    have hstep := handleEvent_inv hinv (hbound e (List.mem_cons_self e rest))
    have hparts := List.pairwise_cons.mp hsort
    exact foldl_inv rest (handleEvent s e) e.time hstep hparts.2 hparts.1

theorem inv_init : Inv ⟨[], [], []⟩ 0 := by
  refine ⟨?_, ?_, ?_, ?_, ?_⟩ <;>
    simp [liveCount, windowCount, Dedup, MAX_ERRORS_PER_MINUTE]

/-- C8: over any time-sorted event trace, the error reporters forward at
most `MAX_ERRORS_PER_MINUTE` (10) reports in any rolling window of
`WINDOW` (60000 ms), and never forward two reports with the same
`errorKey` (message:source:line for sync errors) within `WINDOW` of each
other. -/
theorem error_report_rate_limit_dedup (evs : List ErrEvent)
    (hsorted : evs.Pairwise (fun a b => a.time ≤ b.time)) :
    (∀ t, windowCount t (runHandlers evs).forwarded ≤ MAX_ERRORS_PER_MINUTE) ∧
    Dedup (runHandlers evs).forwarded := by
  obtain ⟨nf, hinv⟩ := foldl_inv evs ⟨[], [], []⟩ 0 inv_init hsorted
    (fun ev _ => Nat.zero_le ev.time)
  exact ⟨hinv.2.2.1, hinv.2.2.2.2⟩

/-- C8 witness: a concrete sorted two-event trace (a repeated error 1 ms
apart) respects both bounds. -/
theorem error_report_rate_limit_dedup_witness :
    (∀ t, windowCount t
        (runHandlers [⟨0, true, "boom", "app.js", 1⟩,
                      ⟨1, true, "boom", "app.js", 1⟩]).forwarded
      ≤ MAX_ERRORS_PER_MINUTE) ∧
    Dedup (runHandlers [⟨0, true, "boom", "app.js", 1⟩,
                        ⟨1, true, "boom", "app.js", 1⟩]).forwarded :=
  error_report_rate_limit_dedup
    [⟨0, true, "boom", "app.js", 1⟩, ⟨1, true, "boom", "app.js", 1⟩]
    (by decide)

end CybLight
